import Mathlib

/-!
Shallow embedding of the regression-analysis scripts
`scripts/check_regressions.py` and `scripts/generate_performance_dashboard.py`.

Python floats are modelled as rationals (ℚ); Python dicts as insertion-ordered
association lists with unique keys (or as lookup functions `String → Option ℚ`
where only lookup is used); a raised exception is modelled as `Option.none`
propagating out of the function that would raise.
-/

namespace CheckRegressions

/-- One entry of the list built by `analyze_regressions`
(`regression_info` dict in the source). -/
structure RegressionRecord where
  testName : String
  currentValue : ℚ
  baselineValue : ℚ
  percentageChange : ℚ
  isRegression : Bool
  isImprovement : Bool
  severity : String
deriving DecidableEq

/-- `categorize_severity(change_percent, threshold)` from check_regressions.py. -/
def categorize_severity (change_percent threshold : ℚ) : String :=
  let abs_change := |change_percent|
  if 0 < change_percent then
    if threshold * 3 < abs_change then "critical"
    else if threshold * 2 < abs_change then "major"
    else if threshold < abs_change then "minor"
    else "negligible"
  else
    if threshold * 2 < abs_change then "major_improvement"
    else if threshold < abs_change then "minor_improvement"
    else "negligible"

/-- The `regression_info` dict built for one metric inside the loop of
`analyze_regressions` (source lines 53–64), given a nonzero baseline value. -/
def mkRecord (name : String) (cur base t : ℚ) : RegressionRecord :=
  let change := (cur - base) / base * 100
  { testName := name
    currentValue := cur
    baselineValue := base
    percentageChange := change
    isRegression := decide (t < change)
    isImprovement := decide (change < -t)
    severity := categorize_severity change t }

/-- The loop of `analyze_regressions` (source lines 49–66): iterate the
`averageTimes` mapping in insertion order, skip metrics absent from the
baseline, and build one record per common metric.  A zero baseline value makes
the Python `(current_time - baseline_time) / baseline_time` raise
`ZeroDivisionError`, modelled as `none`. -/
def analyzeRecords (baseline : String → Option ℚ) (t : ℚ) :
    List (String × ℚ) → Option (List RegressionRecord)
  | [] => some []
  | (name, cur) :: rest =>
    match baseline name with
    | none => analyzeRecords baseline t rest
    | some base =>
      if base = 0 then none
      else (analyzeRecords baseline t rest).map (mkRecord name cur base t :: ·)

/-- First component of the Python sort key
`(not x["isRegression"], -abs(x["percentageChange"]))`. -/
def recordKey1 (r : RegressionRecord) : ℕ := if r.isRegression then 0 else 1

/-- The ≤ relation induced by ascending lexicographic comparison of the Python
sort keys `(not isRegression, -abs(percentageChange))` (source line 69). -/
def recordLe (a b : RegressionRecord) : Bool :=
  decide (recordKey1 a < recordKey1 b ∨
    (recordKey1 a = recordKey1 b ∧ |b.percentageChange| ≤ |a.percentageChange|))

/-- `regressions.sort(key=...)` (source line 69): Python `list.sort` is a
stable sort, modelled by `List.mergeSort` over `recordLe`. -/
def rank (rs : List RegressionRecord) : List RegressionRecord :=
  rs.mergeSort recordLe

/-- `analyze_regressions(current, baseline, threshold)` restricted to its
engine input: the `averageTimes` mapping of the current document (the
`current.get("averageTimes", {})` step is modelled at the caller,
see `runMain`/`getAverageTimes`). -/
def analyze_regressions (current : List (String × ℚ))
    (baseline : String → Option ℚ) (t : ℚ) : Option (List RegressionRecord) :=
  (analyzeRecords baseline t current).map rank

/-- The `summary` + `details` of `generate_regression_report` (lines 98–112),
pure part only (file writing and timestamp omitted). -/
structure Report where
  total_metrics : ℕ
  regressions : ℕ
  improvements : ℕ
  critical_regressions : ℕ
  major_regressions : ℕ
  details : List RegressionRecord
deriving DecidableEq

def generate_regression_report (rs : List RegressionRecord) : Report :=
  { total_metrics := rs.length
    regressions := (rs.filter (fun r => r.isRegression)).length
    improvements := (rs.filter (fun r => r.isImprovement)).length
    critical_regressions := (rs.filter (fun r => r.severity = "critical")).length
    major_regressions := (rs.filter (fun r => r.severity = "major")).length
    details := rs }

/-- Which console branch `check_exit_conditions` takes:
FAILURE print, WARNING print, or SUCCESS print. -/
inductive Verdict where
  | FAIL
  | WARN
  | PASS
deriving DecidableEq

/-- `check_exit_conditions(regressions)` (lines 189–207): the returned exit
code paired with the branch taken (which message is printed). -/
def check_exit_conditions (rs : List RegressionRecord) : ℕ × Verdict :=
  let critical_count := (rs.filter (fun r => r.severity = "critical")).length
  let major_count := (rs.filter (fun r => r.severity = "major")).length
  if 0 < critical_count then (1, Verdict.FAIL)
  else if 3 < major_count then (1, Verdict.FAIL)
  else if 0 < major_count then (0, Verdict.WARN)
  else (0, Verdict.PASS)

/-- Python dict assignment `d[k] = v`: overwrite in place if the key exists,
else append at the end (dicts preserve insertion order). -/
def dictInsert (d : List (String × ℚ)) (k : String) (v : ℚ) :
    List (String × ℚ) :=
  if d.any (fun p => p.1 = k) then
    d.map (fun p => if p.1 = k then (k, v) else p)
  else d ++ [(k, v)]

/-- Python dict lookup `k in d` / `d[k]`. -/
def dictLookup (d : List (String × ℚ)) (k : String) : Option ℚ :=
  (d.find? (fun p => p.1 = k)).map Prod.snd

/-- Loop of `load_baseline_results` (lines 30–35), parameterised by the
behaviour of Python `float(s)` (`pf s = none` models `float` raising
`ValueError`).  A row failing to parse hits the inner `except ValueError:
continue` and is skipped; short rows fail the `len(row) >= 2` guard. -/
def load_baseline_results_go (pf : String → Option ℚ)
    (acc : List (String × ℚ)) : List (List String) → List (String × ℚ)
  | [] => acc
  | row :: rest =>
    if 2 ≤ row.length then
      match pf (row.getD 1 "") with
      | some v => load_baseline_results_go pf (dictInsert acc (row.getD 0 "") v) rest
      | none => load_baseline_results_go pf acc rest
    else load_baseline_results_go pf acc rest

/-- `load_baseline_results(filepath)` on the rows read from the CSV. -/
def load_baseline_results (pf : String → Option ℚ)
    (rows : List (List String)) : List (String × ℚ) :=
  load_baseline_results_go pf [] rows

/-- A top-level JSON value of the current-results document, restricted to the
shapes the scripts touch: a number, or the string-to-number mapping expected
under `averageTimes`. -/
inductive JVal where
  | num (q : ℚ)
  | timesDict (m : List (String × ℚ))
deriving DecidableEq

/-- The current-results document: the top-level JSON object. -/
structure CurrentDoc where
  entries : List (String × JVal)
deriving DecidableEq

def lookupEntry (entries : List (String × JVal)) (k : String) : Option JVal :=
  (entries.find? (fun p => p.1 = k)).map Prod.snd

/-- `current.get("averageTimes", {})` followed by `.items()` (line 47): absent
key yields the default empty mapping; a present non-mapping value would make
`.items()` raise `AttributeError`, modelled as `none`. -/
def getAverageTimes (d : CurrentDoc) : Option (List (String × ℚ)) :=
  match lookupEntry d.entries "averageTimes" with
  | none => some []
  | some (JVal.timesDict m) => some m
  | some (JVal.num _) => none

/-- The inline empty report written by `main` when the baseline is empty
(lines 248–258), pure part (timestamp omitted). -/
def emptyReport : Report :=
  { total_metrics := 0
    regressions := 0
    improvements := 0
    critical_regressions := 0
    major_regressions := 0
    details := [] }

/-- How a run of `main` (lines 210–282) ends. -/
inductive MainResult where
  | abortNoCurrent
  | emptyBaseline (report : Report)
  | crashed
  | finished (report : Report) (exitCode : ℕ)
deriving DecidableEq

/-- The process exit code of each outcome: `sys.exit(1)` on missing current
data, normal return (0) after the empty-baseline warning, nonzero on an
uncaught exception, and the code of `sys.exit(exit_code)` (or normal return)
otherwise. -/
def exitCodeOf : MainResult → ℕ
  | MainResult.abortNoCurrent => 1
  | MainResult.emptyBaseline _ => 0
  | MainResult.crashed => 1
  | MainResult.finished _ c => c

/-- `main()` after argument parsing (lines 236–282).  `loadRes = none` models
`load_current_results` hitting its `except` branch (which returns `{}`);
the document that reaches the `if not current_results` test is therefore
`loadRes.getD ⟨[]⟩`. -/
def runMain (loadRes : Option CurrentDoc) (pf : String → Option ℚ)
    (rows : List (List String)) (t : ℚ) (failFlag : Bool) : MainResult :=
  let current := loadRes.getD ⟨[]⟩
  if current.entries = [] then MainResult.abortNoCurrent
  else
    let baseline := load_baseline_results pf rows
    if baseline = [] then MainResult.emptyBaseline emptyReport
    else
      match getAverageTimes current with
      | none => MainResult.crashed
      | some times =>
        match analyze_regressions times (dictLookup baseline) t with
        | none => MainResult.crashed
        | some rs =>
          MainResult.finished (generate_regression_report rs)
            (if failFlag then (check_exit_conditions rs).1 else 0)

end CheckRegressions

namespace Dashboard

open CheckRegressions

/-- One value of the `changes` dict built by
`calculate_performance_changes` (generate_performance_dashboard.py 44–53). -/
structure ChangeEntry where
  current : ℚ
  baseline : ℚ
  change_percent : ℚ
  status : String
deriving DecidableEq

def mkChangeEntry (v base : ℚ) : ChangeEntry :=
  let change := (v - base) / base * 100
  { current := v
    baseline := base
    change_percent := change
    status :=
      if 5 < change then "regression"
      else if change < -5 then "improvement"
      else "stable" }

/-- `calculate_performance_changes(current, baseline)` (lines 38–54) over the
`averageTimes` mapping; a zero baseline raises `ZeroDivisionError` (`none`). -/
def calculate_performance_changes (baseline : String → Option ℚ) :
    List (String × ℚ) → Option (List (String × ChangeEntry))
  | [] => some []
  | (name, v) :: rest =>
    match baseline name with
    | none => calculate_performance_changes baseline rest
    | some base =>
      if base = 0 then none
      else (calculate_performance_changes baseline rest).map
        ((name, mkChangeEntry v base) :: ·)

/-- Loop of `load_baseline_data` (lines 28–35): unlike
`load_baseline_results`, `float(row[1])` is NOT wrapped in an inner
try/except, so a `ValueError` escapes the loop to the outer handler, which
prints a warning and returns the dict accumulated so far. -/
def load_baseline_data_go (pf : String → Option ℚ)
    (acc : List (String × ℚ)) : List (List String) → List (String × ℚ)
  | [] => acc
  | row :: rest =>
    if 2 ≤ row.length then
      match pf (row.getD 1 "") with
      | some v => load_baseline_data_go pf (dictInsert acc (row.getD 0 "") v) rest
      | none => acc
    else load_baseline_data_go pf acc rest

/-- `load_baseline_data(filepath)` on the rows read from the CSV. -/
def load_baseline_data (pf : String → Option ℚ)
    (rows : List (List String)) : List (String × ℚ) :=
  load_baseline_data_go pf [] rows

end Dashboard

/-- A concrete instance of the Python `float(s)` oracle used for evaluating
the loaders on concrete rows: `float("1") = 1.0`, `float("2") = 2.0`, and any
other string (e.g. `"bad"`) raises `ValueError`. -/
def pfExample : String → Option ℚ :=
  fun s => if s = "1" then some 1 else if s = "2" then some 2 else none

namespace CheckRegressions

/-! ### Severity classification facts -/

lemma severity_critical_eq {c t : ℚ} (h : categorize_severity c t = "critical") :
    0 < c ∧ t * 3 < |c| := by
  simp only [categorize_severity] at h
  split_ifs at h <;> simp_all

lemma severity_major_eq {c t : ℚ} (h : categorize_severity c t = "major") :
    0 < c ∧ t * 2 < |c| := by
  simp only [categorize_severity] at h
  split_ifs at h <;> simp_all

lemma severity_majorimp_eq {c t : ℚ}
    (h : categorize_severity c t = "major_improvement") : ¬0 < c ∧ t * 2 < |c| := by
  simp only [categorize_severity] at h
  split_ifs at h <;> simp_all

lemma severity_minorimp_eq {c t : ℚ}
    (h : categorize_severity c t = "minor_improvement") : ¬0 < c ∧ t < |c| := by
  simp only [categorize_severity] at h
  split_ifs at h <;> simp_all

lemma severity_nonpos_ne {c t : ℚ} (h : ¬0 < c) :
    categorize_severity c t ≠ "critical" ∧ categorize_severity c t ≠ "major" := by
  simp only [categorize_severity, if_neg h]
  split_ifs <;> simp_all

end CheckRegressions

open CheckRegressions Dashboard

/-- C2: for every percentage change `c` and threshold `t ≥ 0`, the severity of
a degradation (`c > 0`) is critical when `|c| > 3t`, else major when
`|c| > 2t`, else minor when `|c| > t`, else negligible; the severity of an
improvement (`c < 0`) is major_improvement when `|c| > 2t`, else
minor_improvement when `|c| > t`, else negligible. -/
theorem claim_C2 (c t : ℚ) (ht : 0 ≤ t) :
    (0 < c → categorize_severity c t =
      (if 3 * t < |c| then "critical"
       else if 2 * t < |c| then "major"
       else if t < |c| then "minor"
       else "negligible")) ∧
    (c < 0 → categorize_severity c t =
      (if 2 * t < |c| then "major_improvement"
       else if t < |c| then "minor_improvement"
       else "negligible")) := by
  constructor
  · intro hc
    unfold categorize_severity
    rw [if_pos hc, mul_comm t 3, mul_comm t 2]
  · intro hc
    unfold categorize_severity
    rw [if_neg (by linarith), mul_comm t 2]

/-- Witness for C2 at the spec's Scenario B numbers: change 20, threshold 5. -/
theorem claim_C2_witness :
    (0 ≤ (5 : ℚ) ∧ 0 < (20 : ℚ)) ∧ categorize_severity 20 5 = "critical" := by
  refine ⟨⟨by norm_num, by norm_num⟩, ?_⟩
  rw [(claim_C2 20 5 (by norm_num)).1 (by norm_num)]
  norm_num

/-- C6 (code bug): a metric present in both sets with baseline value 0 makes
the percentage-change computation raise `ZeroDivisionError` (modelled `none`)
in both `analyze_regressions` and the dashboard's
`calculate_performance_changes`, instead of any defined non-faulting result. -/
theorem claim_C6 :
    analyze_regressions [("a", (1 : ℚ))]
      (fun n => if n = "a" then some 0 else none) 5 = none ∧
    calculate_performance_changes
      (fun n => if n = "a" then some 0 else none) [("a", (1 : ℚ))] = none :=
  ⟨rfl, rfl⟩

namespace CheckRegressions

/-! ### Shape of the records produced by the comparator loop -/

lemma mem_analyzeRecords {baseline : String → Option ℚ} {t : ℚ} :
    ∀ {current : List (String × ℚ)} {rs : List RegressionRecord},
    analyzeRecords baseline t current = some rs →
    ∀ r ∈ rs, ∃ n v b, (n, v) ∈ current ∧ baseline n = some b ∧ b ≠ 0 ∧
      r = mkRecord n v b t := by
  intro current
  induction current with
  | nil =>
    intro rs h r hr
    simp only [analyzeRecords, Option.some.injEq] at h
    subst h
    simp at hr
  | cons p rest ih =>
    obtain ⟨n₀, v₀⟩ := p
    intro rs h r hr
    cases hb : baseline n₀ with
    | none =>
      simp only [analyzeRecords, hb] at h
      obtain ⟨n, v, b, hm, hbb, hb0, hr'⟩ := ih h r hr
      exact ⟨n, v, b, List.mem_cons_of_mem _ hm, hbb, hb0, hr'⟩
    | some b₀ =>
      simp only [analyzeRecords, hb] at h
      by_cases hb0 : b₀ = 0
      · rw [if_pos hb0] at h
        cases h
      · rw [if_neg hb0] at h
        obtain ⟨rs', hrs', hcons⟩ := Option.map_eq_some'.mp h
        subst hcons
        rcases List.mem_cons.mp hr with hr' | hr'
        · exact ⟨n₀, v₀, b₀, List.mem_cons_self _ _, hb, hb0, hr'⟩
        · obtain ⟨n, v, b, hm, hbb, hb0', hr''⟩ := ih hrs' r hr'
          exact ⟨n, v, b, List.mem_cons_of_mem _ hm, hbb, hb0', hr''⟩

lemma mkRecord_not_both {n : String} {v b t : ℚ} (ht : 0 ≤ t) :
    ¬((mkRecord n v b t).isRegression = true ∧
      (mkRecord n v b t).isImprovement = true) := by
  simp only [mkRecord, decide_eq_true_eq]
  rintro ⟨h1, h2⟩
  linarith

lemma mkRecord_both_false_iff {n : String} {v b t : ℚ} :
    ((mkRecord n v b t).isRegression = false ∧
      (mkRecord n v b t).isImprovement = false) ↔
    |(mkRecord n v b t).percentageChange| ≤ t := by
  simp only [mkRecord, decide_eq_false_iff_not, not_lt, abs_le]
  constructor
  · rintro ⟨h1, h2⟩
    exact ⟨by linarith, h1⟩
  · rintro ⟨h1, h2⟩
    exact ⟨h2, by linarith⟩

lemma mkRecord_critical {n : String} {v b t : ℚ} (ht : 0 ≤ t)
    (h : (mkRecord n v b t).severity = "critical") :
    (mkRecord n v b t).isRegression = true := by
  obtain ⟨hpos, h3⟩ :=
    severity_critical_eq (show categorize_severity ((v - b) / b * 100) t = "critical" from h)
  simp only [mkRecord, decide_eq_true_eq]
  rw [abs_of_pos hpos] at h3
  linarith

lemma mkRecord_improvement {n : String} {v b t : ℚ} (ht : 0 ≤ t)
    (h : (mkRecord n v b t).severity = "major_improvement" ∨
      (mkRecord n v b t).severity = "minor_improvement") :
    (mkRecord n v b t).isImprovement = true := by
  simp only [mkRecord, decide_eq_true_eq]
  rcases h with h | h
  · obtain ⟨hnp, h2⟩ := severity_majorimp_eq
      (show categorize_severity ((v - b) / b * 100) t = "major_improvement" from h)
    rw [abs_of_nonpos (le_of_not_lt hnp)] at h2
    linarith
  · obtain ⟨hnp, h2⟩ := severity_minorimp_eq
      (show categorize_severity ((v - b) / b * 100) t = "minor_improvement" from h)
    rw [abs_of_nonpos (le_of_not_lt hnp)] at h2
    linarith

lemma mkRecord_improvement_severity_ne {n : String} {v b t : ℚ} (ht : 0 ≤ t)
    (h : (mkRecord n v b t).isImprovement = true) :
    (mkRecord n v b t).severity ≠ "critical" ∧
      (mkRecord n v b t).severity ≠ "major" := by
  simp only [mkRecord, decide_eq_true_eq] at h ⊢
  exact severity_nonpos_ne (by intro hc; linarith)

end CheckRegressions

/-- C3: every record produced by the comparator with threshold `t ≥ 0` has
`isRegression` and `isImprovement` never both true, both false exactly when
`|percentageChange| ≤ t`, severity critical only on regressions, and
improvement severities only on improvements. -/
theorem claim_C3 (current : List (String × ℚ)) (baseline : String → Option ℚ)
    (t : ℚ) (ht : 0 ≤ t) (rs : List RegressionRecord)
    (h : analyze_regressions current baseline t = some rs) :
    ∀ r ∈ rs,
      ¬(r.isRegression = true ∧ r.isImprovement = true) ∧
      ((r.isRegression = false ∧ r.isImprovement = false) ↔
        |r.percentageChange| ≤ t) ∧
      (r.severity = "critical" → r.isRegression = true) ∧
      ((r.severity = "major_improvement" ∨ r.severity = "minor_improvement") →
        r.isImprovement = true) := by
  intro r hr
  obtain ⟨L, hL, hrank⟩ := Option.map_eq_some'.mp h
  have hrL : r ∈ L := by
    rw [← hrank] at hr
    simpa only [rank, List.mem_mergeSort] using hr
  obtain ⟨n, v, b, hm, hb, hb0, rfl⟩ := mem_analyzeRecords hL r hrL
  exact ⟨mkRecord_not_both ht, mkRecord_both_false_iff,
    fun hc => mkRecord_critical ht hc, fun hi => mkRecord_improvement ht hi⟩

/-- Witness for C3 at the spec's Scenario B numbers. -/
theorem claim_C3_witness :
    (0 ≤ (5 : ℚ) ∧
      analyze_regressions [("a", 120)]
        (fun n => if n = "a" then some 100 else none) 5
        = some [mkRecord "a" 120 100 5]) ∧
    (∀ r ∈ [mkRecord "a" 120 100 5],
      ¬(r.isRegression = true ∧ r.isImprovement = true) ∧
      ((r.isRegression = false ∧ r.isImprovement = false) ↔
        |r.percentageChange| ≤ 5) ∧
      (r.severity = "critical" → r.isRegression = true) ∧
      ((r.severity = "major_improvement" ∨ r.severity = "minor_improvement") →
        r.isImprovement = true)) := by
  have h : analyze_regressions [("a", 120)]
      (fun n => if n = "a" then some 100 else none) 5
      = some [mkRecord "a" 120 100 5] := by
    norm_num [analyze_regressions, analyzeRecords, rank]
  exact ⟨⟨by norm_num, h⟩, claim_C3 _ _ 5 (by norm_num) _ h⟩

/-- C4: `check_exit_conditions` FAILs (exit 1) iff there is a critical record
or more than 3 major records, WARNs (exit 0) iff there is no critical and
between 1 and 3 majors, PASSes otherwise; and a comparator run containing only
improvements never fails. -/
theorem claim_C4 :
    (∀ rs : List RegressionRecord,
      ((check_exit_conditions rs).2 = Verdict.FAIL ↔
        0 < (rs.filter (fun r => r.severity = "critical")).length ∨
          3 < (rs.filter (fun r => r.severity = "major")).length) ∧
      ((check_exit_conditions rs).2 = Verdict.WARN ↔
        (rs.filter (fun r => r.severity = "critical")).length = 0 ∧
          1 ≤ (rs.filter (fun r => r.severity = "major")).length ∧
          (rs.filter (fun r => r.severity = "major")).length ≤ 3) ∧
      ((check_exit_conditions rs).2 = Verdict.PASS ↔
        (rs.filter (fun r => r.severity = "critical")).length = 0 ∧
          (rs.filter (fun r => r.severity = "major")).length = 0) ∧
      ((check_exit_conditions rs).1 ≠ 0 ↔
        (check_exit_conditions rs).2 = Verdict.FAIL)) ∧
    (∀ (current : List (String × ℚ)) (baseline : String → Option ℚ) (t : ℚ)
      (rs : List RegressionRecord), 0 ≤ t →
      analyze_regressions current baseline t = some rs →
      (∀ r ∈ rs, r.isImprovement = true) →
      (check_exit_conditions rs).2 ≠ Verdict.FAIL) := by
  constructor
  · intro rs
    simp only [check_exit_conditions]
    split_ifs with h1 h2 h3
    · exact ⟨iff_of_true rfl (Or.inl h1), iff_of_false (by decide) (by omega),
        iff_of_false (by decide) (by omega), iff_of_true (by decide) rfl⟩
    · exact ⟨iff_of_true rfl (Or.inr h2), iff_of_false (by decide) (by omega),
        iff_of_false (by decide) (by omega), iff_of_true (by decide) rfl⟩
    · exact ⟨iff_of_false (by decide) (by omega), iff_of_true rfl (by omega),
        iff_of_false (by decide) (by omega), iff_of_false (by decide) (by decide)⟩
    · exact ⟨iff_of_false (by decide) (by omega), iff_of_false (by decide) (by omega),
        iff_of_true rfl (by omega), iff_of_false (by decide) (by decide)⟩
  · intro current baseline t rs ht h himp
    have hshape : ∀ r ∈ rs, r.severity ≠ "critical" ∧ r.severity ≠ "major" := by
      intro r hr
      obtain ⟨L, hL, hrank⟩ := Option.map_eq_some'.mp h
      have hrL : r ∈ L := by
        rw [← hrank] at hr
        simpa only [rank, List.mem_mergeSort] using hr
      obtain ⟨n, v, b, hm, hb, hb0, rfl⟩ := mem_analyzeRecords hL r hrL
      exact mkRecord_improvement_severity_ne ht (himp _ hr)
    have hc : (rs.filter (fun r => r.severity = "critical")).length = 0 := by
      rw [List.length_eq_zero, List.filter_eq_nil]
      intro r hr
      simpa using (hshape r hr).1
    have hm : (rs.filter (fun r => r.severity = "major")).length = 0 := by
      rw [List.length_eq_zero, List.filter_eq_nil]
      intro r hr
      simpa using (hshape r hr).2
    simp [check_exit_conditions, hc, hm]

/-- Witness for C4 at the spec's Scenario C numbers: a single improvement
record never fails the run. -/
theorem claim_C4_witness :
    (0 ≤ (5 : ℚ) ∧
      analyze_regressions [("a", 80)]
        (fun n => if n = "a" then some 100 else none) 5
        = some [mkRecord "a" 80 100 5] ∧
      (∀ r ∈ [mkRecord "a" 80 100 5], r.isImprovement = true)) ∧
    (check_exit_conditions [mkRecord "a" 80 100 5]).2 ≠ Verdict.FAIL := by
  have h : analyze_regressions [("a", 80)]
      (fun n => if n = "a" then some 100 else none) 5
      = some [mkRecord "a" 80 100 5] := by
    norm_num [analyze_regressions, analyzeRecords, rank]
  have himp : ∀ r ∈ [mkRecord "a" 80 100 5], r.isImprovement = true := by
    intro r hr
    simp only [List.mem_singleton] at hr
    subst hr
    norm_num [mkRecord]
  exact ⟨⟨by norm_num, h, himp⟩, claim_C4.2 _ _ 5 _ (by norm_num) h himp⟩

/-- C7: with a nonempty current document and an empty baseline, `main` still
produces the well-formed empty report (all summary counts zero, empty
details), returns normally (exit code 0), and the verdict on zero records is
PASS. -/
theorem claim_C7 (loadRes : Option CurrentDoc) (pf : String → Option ℚ)
    (rows : List (List String)) (t : ℚ) (failFlag : Bool)
    (hcur : (loadRes.getD ⟨[]⟩).entries ≠ [])
    (hbase : load_baseline_results pf rows = []) :
    runMain loadRes pf rows t failFlag = MainResult.emptyBaseline emptyReport ∧
    emptyReport.details = [] ∧
    emptyReport.total_metrics = 0 ∧
    emptyReport.regressions = 0 ∧
    emptyReport.improvements = 0 ∧
    emptyReport.critical_regressions = 0 ∧
    emptyReport.major_regressions = 0 ∧
    exitCodeOf (runMain loadRes pf rows t failFlag) = 0 ∧
    (check_exit_conditions []).2 = Verdict.PASS := by
  have hrun : runMain loadRes pf rows t failFlag
      = MainResult.emptyBaseline emptyReport := by
    simp only [runMain, hbase]
    rw [if_neg hcur]
    simp
  refine ⟨hrun, rfl, rfl, rfl, rfl, rfl, rfl, ?_, by decide⟩
  rw [hrun]
  rfl

/-- Witness for C7: one current metric, no baseline rows. -/
theorem claim_C7_witness :
    runMain (some ⟨[("averageTimes", JVal.timesDict [("a", 1)])]⟩) pfExample
      [] 5 true = MainResult.emptyBaseline emptyReport ∧
    exitCodeOf (runMain (some ⟨[("averageTimes", JVal.timesDict [("a", 1)])]⟩)
      pfExample [] 5 true) = 0 := by
  obtain ⟨h1, -, -, -, -, -, -, h2, -⟩ :=
    claim_C7 (some ⟨[("averageTimes", JVal.timesDict [("a", 1)])]⟩) pfExample
      [] 5 true (by simp) rfl
  exact ⟨h1, h2⟩

namespace CheckRegressions

/-- Skipping a row whose value fails to parse: the checker's loader processes
the remaining rows exactly as if the bad row were absent. -/
lemma load_results_go_skip (pf : String → Option ℚ) (bad : List String)
    (hlen : 2 ≤ bad.length) (hbad : pf (bad.getD 1 "") = none) :
    ∀ (pre : List (List String)) (post : List (List String))
      (acc : List (String × ℚ)),
      load_baseline_results_go pf acc (pre ++ bad :: post) =
        load_baseline_results_go pf acc (pre ++ post) := by
  intro pre
  induction pre with
  | nil =>
    intro post acc
    simp only [List.nil_append, load_baseline_results_go, hbad]
    rw [if_pos hlen]
  | cons row rest ih =>
    intro post acc
    simp only [List.cons_append, load_baseline_results_go]
    by_cases hg : 2 ≤ row.length
    · rw [if_pos hg, if_pos hg]
      cases hp : pf (row.getD 1 "") with
      | none => exact ih post acc
      | some v => exact ih post _
    · rw [if_neg hg, if_neg hg]
      exact ih post acc

end CheckRegressions

namespace Dashboard

/-- The dashboard's loader stops at the first row whose value fails to parse:
the rows after it never contribute, and the result is whatever had been
accumulated over the rows before it. -/
lemma load_data_go_trunc (pf : String → Option ℚ) (bad : List String)
    (hlen : 2 ≤ bad.length) (hbad : pf (bad.getD 1 "") = none) :
    ∀ (pre : List (List String)) (post : List (List String))
      (acc : List (String × ℚ)),
      load_baseline_data_go pf acc (pre ++ bad :: post) =
        load_baseline_data_go pf acc pre := by
  intro pre
  induction pre with
  | nil =>
    intro post acc
    simp only [List.nil_append, load_baseline_data_go, hbad]
    rw [if_pos hlen]
  | cons row rest ih =>
    intro post acc
    simp only [List.cons_append, load_baseline_data_go]
    by_cases hg : 2 ≤ row.length
    · rw [if_pos hg, if_pos hg]
      cases hp : pf (row.getD 1 "") with
      | none => rfl
      | some v => exact ih post _
    · rw [if_neg hg, if_neg hg]
      exact ih post acc

end Dashboard

/-- C8 counterexample: in the dashboard's baseline loader, a row whose value
fails to parse is NOT merely skipped — the well-formed row after it is
dropped, so the load differs from the load without the bad row. -/
theorem claim_C8_cex :
    Dashboard.load_baseline_data pfExample [["a", "1"], ["b", "bad"], ["c", "2"]] ≠
      Dashboard.load_baseline_data pfExample [["a", "1"], ["c", "2"]] := by
  decide

/-- C8 (amended): in `check_regressions.load_baseline_results` a row whose
value fails to parse is skipped individually and all remaining rows are
loaded; in the dashboard's `load_baseline_data` such a row ends the load,
keeping the rows before it and dropping every row after it. -/
theorem claim_C8_amended (pf : String → Option ℚ)
    (pre post : List (List String)) (bad : List String)
    (hlen : 2 ≤ bad.length) (hbad : pf (bad.getD 1 "") = none) :
    load_baseline_results pf (pre ++ bad :: post) =
      load_baseline_results pf (pre ++ post) ∧
    Dashboard.load_baseline_data pf (pre ++ bad :: post) =
      Dashboard.load_baseline_data pf pre :=
  ⟨load_results_go_skip pf bad hlen hbad pre post [],
    Dashboard.load_data_go_trunc pf bad hlen hbad pre post []⟩

/-- Witness for the amended C8 on concrete rows. -/
theorem claim_C8_amended_witness :
    (2 ≤ (["b", "bad"] : List String).length ∧
      pfExample ((["b", "bad"] : List String).getD 1 "") = none) ∧
    load_baseline_results pfExample ([["a", "1"]] ++ ["b", "bad"] :: [["c", "2"]]) =
      load_baseline_results pfExample ([["a", "1"]] ++ [["c", "2"]]) ∧
    Dashboard.load_baseline_data pfExample ([["a", "1"]] ++ ["b", "bad"] :: [["c", "2"]]) =
      Dashboard.load_baseline_data pfExample [["a", "1"]] :=
  ⟨⟨by decide, by decide⟩,
    claim_C8_amended pfExample [["a", "1"]] [["c", "2"]] ["b", "bad"]
      (by decide) (by decide)⟩

/-- C9 counterexample: a non-empty current document that lacks the
`averageTimes` mapping is NOT treated as a load failure — the run proceeds
through analysis to a finished (empty) report with exit code 0 instead of
aborting with a non-zero exit. -/
theorem claim_C9_cex :
    runMain (some ⟨[("foo", JVal.num 1)]⟩) pfExample [["a", "1"]] 5 true
      = MainResult.finished (generate_regression_report []) 0 ∧
    runMain (some ⟨[("foo", JVal.num 1)]⟩) pfExample [["a", "1"]] 5 true
      ≠ MainResult.abortNoCurrent ∧
    exitCodeOf (runMain (some ⟨[("foo", JVal.num 1)]⟩) pfExample
      [["a", "1"]] 5 true) = 0 := by
  have h : runMain (some ⟨[("foo", JVal.num 1)]⟩) pfExample [["a", "1"]] 5 true
      = MainResult.finished (generate_regression_report []) 0 := by
    simp [runMain, load_baseline_results, load_baseline_results_go, dictInsert,
      pfExample, getAverageTimes, lookupEntry, analyze_regressions,
      analyzeRecords, rank, dictLookup, check_exit_conditions,
      generate_regression_report, String.reduceEq, List.find?]
  refine ⟨h, ?_, ?_⟩
  · rw [h]
    simp
  · rw [h]
    rfl

/-- C9 (amended): `main` aborts with exit code 1 before any analysis exactly
when the loaded current document is empty (the `if not current_results`
test); a non-empty document lacking `averageTimes` is not a load failure —
analysis proceeds over an empty metric set and finishes with an empty report
and exit code 0. -/
theorem claim_C9_amended (loadRes : Option CurrentDoc) (pf : String → Option ℚ)
    (rows : List (List String)) (t : ℚ) (flag : Bool) :
    (runMain loadRes pf rows t flag = MainResult.abortNoCurrent ↔
      (loadRes.getD ⟨[]⟩).entries = []) ∧
    exitCodeOf MainResult.abortNoCurrent = 1 ∧
    ((loadRes.getD ⟨[]⟩).entries ≠ [] →
      lookupEntry (loadRes.getD ⟨[]⟩).entries "averageTimes" = none →
      load_baseline_results pf rows ≠ [] →
      runMain loadRes pf rows t flag
        = MainResult.finished (generate_regression_report []) 0) := by
  refine ⟨⟨?_, ?_⟩, rfl, ?_⟩
  · intro hruneq
    by_contra hne
    simp only [runMain] at hruneq
    rw [if_neg hne] at hruneq
    split at hruneq
    · simp at hruneq
    · split at hruneq
      · simp at hruneq
      · split at hruneq <;> simp at hruneq
  · intro h
    simp only [runMain]
    rw [if_pos h]
  · intro h1 h2 h3
    simp only [runMain]
    rw [if_neg h1, if_neg h3]
    simp [getAverageTimes, h2, analyze_regressions, analyzeRecords, rank,
      check_exit_conditions, generate_regression_report]

/-- Witness for the amended C9: a run whose current document holds one
unrelated key proceeds to a finished empty report. -/
theorem claim_C9_amended_witness :
    runMain (some ⟨[("bar", JVal.num 2)]⟩) pfExample [["a", "1"]] 5 false
      = MainResult.finished (generate_regression_report []) 0 := by
  refine (claim_C9_amended (some ⟨[("bar", JVal.num 2)]⟩) pfExample
    [["a", "1"]] 5 false).2.2 ?_ ?_ ?_
  · simp
  · rfl
  · decide

namespace CheckRegressions

/-- When every common metric has a nonzero baseline, the comparator loop
succeeds and produces exactly the records of the common metrics, in the
iteration order of `current`. -/
lemma analyzeRecords_eq_filterMap {baseline : String → Option ℚ} {t : ℚ} :
    ∀ {current : List (String × ℚ)},
    (∀ p ∈ current, ∀ b, baseline p.1 = some b → b ≠ 0) →
    analyzeRecords baseline t current =
      some (current.filterMap fun p =>
        (baseline p.1).map fun b => mkRecord p.1 p.2 b t) := by
  intro current
  induction current with
  | nil => intro _; rfl
  | cons p rest ih =>
    intro hz
    obtain ⟨n, v⟩ := p
    have hz' : ∀ q ∈ rest, ∀ b, baseline q.1 = some b → b ≠ 0 :=
      fun q hq => hz q (List.mem_cons_of_mem _ hq)
    cases hb : baseline n with
    | none =>
      simp only [analyzeRecords, hb, List.filterMap_cons, Option.map_none']
      exact ih hz'
    | some b =>
      have hb0 : b ≠ 0 := hz (n, v) (List.mem_cons_self _ _) b hb
      simp only [analyzeRecords, hb, if_neg hb0, ih hz', Option.map_some',
        List.filterMap_cons]

lemma testName_mem_of_mem_filterMap {baseline : String → Option ℚ} {t : ℚ}
    {current : List (String × ℚ)} {r : RegressionRecord}
    (hr : r ∈ current.filterMap fun p =>
      (baseline p.1).map fun b => mkRecord p.1 p.2 b t) :
    r.testName ∈ current.map Prod.fst := by
  obtain ⟨p, hp, hf⟩ := List.mem_filterMap.mp hr
  obtain ⟨b, _, rfl⟩ := Option.map_eq_some'.mp hf
  exact List.mem_map_of_mem Prod.fst hp

/-- With unique metric names, the records carrying a given common metric's
name are exactly the one record built for it. -/
lemma filterMap_filter_name {baseline : String → Option ℚ} {t : ℚ} :
    ∀ {current : List (String × ℚ)}, (current.map Prod.fst).Nodup →
    ∀ {name : String} {v b : ℚ}, (name, v) ∈ current → baseline name = some b →
    ((current.filterMap fun p =>
        (baseline p.1).map fun b => mkRecord p.1 p.2 b t).filter
      (fun r => r.testName = name)) = [mkRecord name v b t] := by
  intro current
  induction current with
  | nil =>
    intro _ name v b hmem _
    simp at hmem
  | cons q rest ih =>
    intro hnodup name v b hmem hb
    obtain ⟨n₀, v₀⟩ := q
    rw [List.map_cons, List.nodup_cons] at hnodup
    obtain ⟨hn₀, hnodup'⟩ := hnodup
    rcases List.mem_cons.mp hmem with heq | hmem'
    · obtain ⟨rfl, rfl⟩ := Prod.mk.injEq .. ▸ heq
      simp only [List.filterMap_cons, hb, Option.map_some']
      rw [List.filter_cons_of_pos (by simp [mkRecord])]
      have hrest : ((rest.filterMap fun p =>
          (baseline p.1).map fun b => mkRecord p.1 p.2 b t).filter
            (fun r => r.testName = name)) = [] := by
        rw [List.filter_eq_nil_iff]
        intro r hr
        have := testName_mem_of_mem_filterMap hr
        simp only [decide_eq_true_eq]
        intro hcontra
        exact hn₀ (hcontra ▸ this)
      rw [hrest]
    · have hname : name ∈ rest.map Prod.fst :=
        List.mem_map_of_mem Prod.fst hmem'
      have hne : n₀ ≠ name := fun hcontra => hn₀ (hcontra ▸ hname)
      simp only [List.filterMap_cons]
      cases hb₀ : baseline n₀ with
      | none => exact ih hnodup' hmem' hb
      | some b₀ =>
        simp only [Option.map_some']
        rw [List.filter_cons_of_neg (by simp [mkRecord, hne])]
        exact ih hnodup' hmem' hb

end CheckRegressions

/-- C1: with unique metric names and nonzero baselines for all common
metrics, `analyze_regressions` outputs exactly one record per metric present
in both sets, carrying `percentageChange = (current − baseline) / baseline ×
100`, and no record for any metric present in only one set. -/
theorem claim_C1 (current : List (String × ℚ)) (baseline : String → Option ℚ)
    (t : ℚ) (hnodup : (current.map Prod.fst).Nodup)
    (hz : ∀ p ∈ current, ∀ b, baseline p.1 = some b → b ≠ 0) :
    ∃ rs, analyze_regressions current baseline t = some rs ∧
      (∀ (name : String) (v b : ℚ), (name, v) ∈ current →
        baseline name = some b →
        (rs.filter (fun r => r.testName = name)).length = 1 ∧
        ∀ r ∈ rs, r.testName = name →
          r.percentageChange = (v - b) / b * 100) ∧
      (∀ name : String,
        (name ∉ current.map Prod.fst ∨ baseline name = none) →
        ∀ r ∈ rs, r.testName ≠ name) := by
  have hA := analyzeRecords_eq_filterMap (t := t) hz
  refine ⟨rank (current.filterMap fun p =>
    (baseline p.1).map fun b => mkRecord p.1 p.2 b t), ?_, ?_, ?_⟩
  · simp [analyze_regressions, hA]
  · intro name v b hmem hb
    have hfil := filterMap_filter_name (t := t) hnodup hmem hb
    have hperm : List.Perm
        (rank (current.filterMap fun p =>
          (baseline p.1).map fun b => mkRecord p.1 p.2 b t))
        (current.filterMap fun p =>
          (baseline p.1).map fun b => mkRecord p.1 p.2 b t) :=
      List.mergeSort_perm _ recordLe
    constructor
    · rw [(hperm.filter _).length_eq, hfil]
      rfl
    · intro r hr hrname
      have hrL : r ∈ current.filterMap fun p =>
          (baseline p.1).map fun b => mkRecord p.1 p.2 b t :=
        hperm.subset hr
      have hrf : r ∈ [mkRecord name v b t] := by
        rw [← hfil]
        exact List.mem_filter.mpr ⟨hrL, by simpa using hrname⟩
      rw [List.mem_singleton.mp hrf]
      simp [mkRecord]
  · intro name hcase r hr hrname
    have hrL : r ∈ current.filterMap fun p =>
        (baseline p.1).map fun b => mkRecord p.1 p.2 b t :=
      (List.mergeSort_perm _ recordLe).subset hr
    obtain ⟨p, hp, hf⟩ := List.mem_filterMap.mp hrL
    obtain ⟨b, hbb, rfl⟩ := Option.map_eq_some'.mp hf
    rcases hcase with hnot | hnone
    · exact hnot (hrname ▸ List.mem_map_of_mem Prod.fst hp)
    · rw [show (mkRecord p.1 p.2 b t).testName = p.1 from rfl] at hrname
      rw [hrname, hnone] at hbb
      cases hbb

/-- Witness for C1: one common metric (Scenario B numbers) plus one metric
present only in `current`. -/
theorem claim_C1_witness :
    ∃ rs, analyze_regressions [("a", 120), ("b", 50)]
        (fun n => if n = "a" then some 100 else none) 5 = some rs ∧
      (∀ (name : String) (v b : ℚ), (name, v) ∈ [("a", (120 : ℚ)), ("b", 50)] →
        (if name = "a" then some (100 : ℚ) else none) = some b →
        (rs.filter (fun r => r.testName = name)).length = 1 ∧
        ∀ r ∈ rs, r.testName = name →
          r.percentageChange = (v - b) / b * 100) ∧
      (∀ name : String,
        (name ∉ [("a", (120 : ℚ)), ("b", 50)].map Prod.fst ∨
          (if name = "a" then some (100 : ℚ) else none) = none) →
        ∀ r ∈ rs, r.testName ≠ name) := by
  refine claim_C1 [("a", 120), ("b", 50)]
    (fun n => if n = "a" then some 100 else none) 5 (by decide) ?_
  intro p hp b hb
  by_cases hpa : p.1 = "a"
  · simp only [hpa, if_pos] at hb
    simp at hb
    subst hb
    norm_num
  · simp only [if_neg hpa] at hb
    cases hb

namespace Dashboard

/-- At the default threshold 5.0, the checker's record flags and the
dashboard's 3-way status agree metric-by-metric. -/
lemma mkRecord_status_align (n : String) (v b : ℚ) :
    (mkRecord n v b 5).percentageChange = (mkChangeEntry v b).change_percent ∧
    ((mkChangeEntry v b).status = "regression" ↔
      (mkRecord n v b 5).isRegression = true) ∧
    ((mkChangeEntry v b).status = "improvement" ↔
      (mkRecord n v b 5).isImprovement = true) ∧
    ((mkChangeEntry v b).status = "stable" ↔
      ((mkRecord n v b 5).isRegression = false ∧
        (mkRecord n v b 5).isImprovement = false)) := by
  simp only [mkRecord, mkChangeEntry, decide_eq_true_eq, decide_eq_false_iff_not]
  refine ⟨by trivial, ?_, ?_, ?_⟩ <;> split_ifs with h1 h2 <;> simp_all <;> linarith

/-- The two comparison loops walk `current` in the same order, keep the same
metrics, and produce aligned results. -/
lemma analyze_calc_align {baseline : String → Option ℚ} :
    ∀ {current : List (String × ℚ)},
    (∀ p ∈ current, ∀ b, baseline p.1 = some b → b ≠ 0) →
    ∃ L cs, analyzeRecords baseline 5 current = some L ∧
      calculate_performance_changes baseline current = some cs ∧
      (∀ r ∈ L, ∃ e, (r.testName, e) ∈ cs ∧
        r.percentageChange = e.change_percent ∧
        (e.status = "regression" ↔ r.isRegression = true) ∧
        (e.status = "improvement" ↔ r.isImprovement = true) ∧
        (e.status = "stable" ↔
          (r.isRegression = false ∧ r.isImprovement = false))) ∧
      (∀ q ∈ cs, ∃ r ∈ L, r.testName = q.1 ∧
        r.percentageChange = q.2.change_percent ∧
        (q.2.status = "regression" ↔ r.isRegression = true) ∧
        (q.2.status = "improvement" ↔ r.isImprovement = true) ∧
        (q.2.status = "stable" ↔
          (r.isRegression = false ∧ r.isImprovement = false))) := by
  intro current
  induction current with
  | nil =>
    intro _
    exact ⟨[], [], rfl, rfl, by simp, by simp⟩
  | cons p rest ih =>
    intro hz
    obtain ⟨n, v⟩ := p
    have hz' : ∀ q ∈ rest, ∀ b, baseline q.1 = some b → b ≠ 0 :=
      fun q hq => hz q (List.mem_cons_of_mem _ hq)
    obtain ⟨L', cs', hL', hcs', hfwd, hbwd⟩ := ih hz'
    cases hb : baseline n with
    | none =>
      refine ⟨L', cs', ?_, ?_, hfwd, hbwd⟩
      · simp only [analyzeRecords, hb]
        exact hL'
      · simp only [calculate_performance_changes, hb]
        exact hcs'
    | some b =>
      have hb0 : b ≠ 0 := hz (n, v) (List.mem_cons_self _ _) b hb
      refine ⟨mkRecord n v b 5 :: L', (n, mkChangeEntry v b) :: cs', ?_, ?_, ?_, ?_⟩
      · simp only [analyzeRecords, hb, if_neg hb0, hL', Option.map_some']
      · simp only [calculate_performance_changes, hb, if_neg hb0, hcs',
          Option.map_some']
      · intro r hr
        rcases List.mem_cons.mp hr with rfl | hr'
        · obtain ⟨h1, h2, h3, h4⟩ := mkRecord_status_align n v b
          exact ⟨mkChangeEntry v b,
            List.mem_cons_self _ _, h1, h2, h3, h4⟩
        · obtain ⟨e, he, hprops⟩ := hfwd r hr'
          exact ⟨e, List.mem_cons_of_mem _ he, hprops⟩
      · intro q hq
        rcases List.mem_cons.mp hq with rfl | hq'
        · obtain ⟨h1, h2, h3, h4⟩ := mkRecord_status_align n v b
          exact ⟨mkRecord n v b 5, List.mem_cons_self _ _, rfl, h1, h2, h3, h4⟩
        · obtain ⟨r, hrL, hprops⟩ := hbwd q hq'
          exact ⟨r, List.mem_cons_of_mem _ hrL, hprops⟩

end Dashboard

/-- C10: at the default threshold 5.0 and with nonzero baselines for all
common metrics, the checker and the dashboard agree: equal percentage
changes, and status regression/improvement/stable corresponds exactly to
`isRegression`/`isImprovement`/neither. -/
theorem claim_C10 (current : List (String × ℚ)) (baseline : String → Option ℚ)
    (hz : ∀ p ∈ current, ∀ b, baseline p.1 = some b → b ≠ 0) :
    ∃ rs cs, analyze_regressions current baseline 5 = some rs ∧
      calculate_performance_changes baseline current = some cs ∧
      (∀ r ∈ rs, ∃ e, (r.testName, e) ∈ cs ∧
        r.percentageChange = e.change_percent ∧
        (e.status = "regression" ↔ r.isRegression = true) ∧
        (e.status = "improvement" ↔ r.isImprovement = true) ∧
        (e.status = "stable" ↔
          (r.isRegression = false ∧ r.isImprovement = false))) ∧
      (∀ q ∈ cs, ∃ r ∈ rs, r.testName = q.1 ∧
        r.percentageChange = q.2.change_percent ∧
        (q.2.status = "regression" ↔ r.isRegression = true) ∧
        (q.2.status = "improvement" ↔ r.isImprovement = true) ∧
        (q.2.status = "stable" ↔
          (r.isRegression = false ∧ r.isImprovement = false))) := by
  obtain ⟨L, cs, hL, hcs, hfwd, hbwd⟩ := Dashboard.analyze_calc_align hz
  refine ⟨rank L, cs, by simp [analyze_regressions, hL], hcs, ?_, ?_⟩
  · intro r hr
    exact hfwd r ((List.mergeSort_perm _ _).subset hr)
  · intro q hq
    obtain ⟨r, hrL, hprops⟩ := hbwd q hq
    exact ⟨r, List.mem_mergeSort.mpr hrL, hprops⟩

/-- Witness for C10 at the spec's Scenario B numbers. -/
theorem claim_C10_witness :
    ∃ rs cs, analyze_regressions [("a", 120)]
        (fun n => if n = "a" then some 100 else none) 5 = some rs ∧
      calculate_performance_changes
        (fun n => if n = "a" then some 100 else none) [("a", 120)] = some cs ∧
      (∀ r ∈ rs, ∃ e, (r.testName, e) ∈ cs ∧
        r.percentageChange = e.change_percent ∧
        (e.status = "regression" ↔ r.isRegression = true) ∧
        (e.status = "improvement" ↔ r.isImprovement = true) ∧
        (e.status = "stable" ↔
          (r.isRegression = false ∧ r.isImprovement = false))) ∧
      (∀ q ∈ cs, ∃ r ∈ rs, r.testName = q.1 ∧
        r.percentageChange = q.2.change_percent ∧
        (q.2.status = "regression" ↔ r.isRegression = true) ∧
        (q.2.status = "improvement" ↔ r.isImprovement = true) ∧
        (q.2.status = "stable" ↔
          (r.isRegression = false ∧ r.isImprovement = false))) := by
  refine claim_C10 [("a", 120)] (fun n => if n = "a" then some 100 else none) ?_
  intro p hp b hb
  by_cases hpa : p.1 = "a"
  · simp only [hpa, if_pos] at hb
    simp at hb
    subst hb
    norm_num
  · simp only [if_neg hpa] at hb
    cases hb

namespace CheckRegressions

/-! ### The sort relation is a total preorder -/

lemma recordLe_trans : ∀ a b c : RegressionRecord,
    recordLe a b = true → recordLe b c = true → recordLe a c = true := by
  intro a b c hab hbc
  simp only [recordLe, decide_eq_true_eq] at hab hbc ⊢
  rcases hab with h1 | ⟨h1, h2⟩ <;> rcases hbc with h3 | ⟨h3, h4⟩
  · exact Or.inl (by omega)
  · exact Or.inl (by omega)
  · exact Or.inl (by omega)
  · exact Or.inr ⟨by omega, h4.trans h2⟩

lemma recordLe_total : ∀ a b : RegressionRecord,
    (recordLe a b || recordLe b a) = true := by
  intro a b
  simp only [recordLe, Bool.or_eq_true, decide_eq_true_eq]
  rcases Nat.lt_trichotomy (recordKey1 a) (recordKey1 b) with h | h | h
  · exact Or.inl (Or.inl h)
  · rcases le_total |b.percentageChange| |a.percentageChange| with h2 | h2
    · exact Or.inl (Or.inr ⟨h, h2⟩)
    · exact Or.inr (Or.inr ⟨h.symm, h2⟩)
  · exact Or.inr (Or.inl h)

lemma recordKey1_eq_zero {a : RegressionRecord} (h : recordKey1 a = 0) :
    a.isRegression = true := by
  cases ha : a.isRegression
  · simp [recordKey1, ha] at h
  · rfl

end CheckRegressions

/-- C5: the ranked sequence places regressions before non-regressions, sorts
each group by descending absolute percentage change, keeps the original
relative order of records tied on both keys, and is idempotent. -/
theorem claim_C5 (rs : List RegressionRecord) :
    ((rank rs).Pairwise (fun a b =>
      b.isRegression = true → a.isRegression = true)) ∧
    ((rank rs).Pairwise (fun a b => a.isRegression = b.isRegression →
      |b.percentageChange| ≤ |a.percentageChange|)) ∧
    (∀ a b : RegressionRecord, List.Sublist [a, b] rs →
      a.isRegression = b.isRegression →
      |a.percentageChange| = |b.percentageChange| →
      List.Sublist [a, b] (rank rs)) ∧
    rank (rank rs) = rank rs := by
  have hsorted := List.sorted_mergeSort recordLe_trans recordLe_total rs
  refine ⟨?_, ?_, ?_, ?_⟩
  · refine hsorted.imp ?_
    intro a b hab hb
    simp only [recordLe, decide_eq_true_eq] at hab
    have hkb : recordKey1 b = 0 := by simp [recordKey1, hb]
    refine recordKey1_eq_zero ?_
    rcases hab with h | ⟨h, _⟩ <;> omega
  · refine hsorted.imp ?_
    intro a b hab heq
    simp only [recordLe, decide_eq_true_eq] at hab
    have hk : recordKey1 a = recordKey1 b := by simp [recordKey1, heq]
    rcases hab with h | ⟨_, h2⟩
    · omega
    · exact h2
  · intro a b hsub hkeq habs
    have hle : recordLe a b = true := by
      simp only [recordLe, decide_eq_true_eq]
      exact Or.inr ⟨by simp [recordKey1, hkeq], le_of_eq habs.symm⟩
    refine List.sublist_mergeSort recordLe_trans recordLe_total ?_ hsub
    exact List.Pairwise.cons
      (fun y hy => by rw [List.mem_singleton.mp hy]; exact hle)
      (List.pairwise_singleton _ _)
  · exact List.mergeSort_of_sorted hsorted

/-- Witness for C5: two distinct records tied on both sort keys keep their
original relative order through `rank`. -/
theorem claim_C5_witness :
    List.Sublist [mkRecord "a" 100 100 5, mkRecord "b" 200 200 5]
      (rank [mkRecord "a" 100 100 5, mkRecord "b" 200 200 5]) := by
  refine (claim_C5 [mkRecord "a" 100 100 5, mkRecord "b" 200 200 5]).2.2.1
    (mkRecord "a" 100 100 5) (mkRecord "b" 200 200 5)
    (List.Sublist.refl _) ?_ ?_
  · norm_num [mkRecord]
  · norm_num [mkRecord]
